import Mathlib

/-!
Verification of the Room & Negotiation Coordinator of a hybrid P2P/SFU
video-calling application.

The development shallowly embeds, in Lean:

* the server-side room registry (`rooms.ts`: `getRoom`, `createRoom`,
  `joinRoom`, `leaveRoom`) — an in-memory `Map<string, Room>` modelled as an
  association list with JS-`Map` semantics (replace-on-set, unique keys from
  construction);
* the Socket.IO `join-room` handler of the signaling server (`index.ts`),
  including its `socket.data` binding and its `mode-changed` / `room-updated`
  broadcasts;
* the REST `POST /api/room` argument check of `index.ts`;
* the client-side P2P negotiation handlers of `P2PCall.tsx`
  (`webrtc-offer`, `webrtc-answer`, `webrtc-ice-candidate`, `room-updated`)
  over a deterministic model of the browser `RTCPeerConnection`
  signaling-state machine (an external API; only the success path is
  modelled, matching the spec's negotiation state machine contract).
-/

/-- The topology mode of a room: `'p2p'` (MESH) or `'sfu'` (ROUTED). -/
inductive RoomMode where
  | p2p
  | sfu
  deriving DecidableEq, Repr

/-- A room record: `{ id, mode, participants }` from `rooms.ts`. -/
structure Room where
  id : String
  mode : RoomMode
  participants : List String
  deriving DecidableEq, Repr

/-- The in-memory registry `const rooms = new Map<string, Room>()`,
modelled as an association list from room id to room. -/
abbrev Registry := List (String × Room)

/-- The empty registry (server start-up state). -/
def emptyRegistry : Registry := []

/-- `rooms.get(roomId)` / the exported `getRoom` of `rooms.ts`: first-match
lookup by key (keys are unique, as in the JS `Map`). -/
def getRoom (rooms : Registry) (roomId : String) : Option Room :=
  match rooms with
  | [] => none
  | p :: rest => if p.1 == roomId then some p.2 else getRoom rest roomId

/-- `rooms.set(roomId, room)`: replace the entry in place if the key is
present, otherwise append (JS `Map` keeps insertion order). -/
def setRoom (rooms : Registry) (roomId : String) (room : Room) : Registry :=
  match rooms with
  | [] => [(roomId, room)]
  | p :: rest =>
      if p.1 == roomId then (roomId, room) :: rest
      else p :: setRoom rest roomId room

/-- `rooms.delete(roomId)`. -/
def eraseRoom (rooms : Registry) (roomId : String) : Registry :=
  rooms.filter (fun p => p.1 != roomId)

/-- `createRoom` of `rooms.ts`: fresh room in `'p2p'` mode with the single
initial participant, stored in the registry. -/
def createRoom (rooms : Registry) (roomId userId : String) : Registry × Room :=
  let room : Room := { id := roomId, mode := RoomMode.p2p, participants := [userId] }
  (setRoom rooms roomId room, room)

/-- `joinRoom` of `rooms.ts`: create the room if absent, otherwise push the
participant if not already included, then recompute the mode from the
participant count (`<= 2 → 'p2p'`, otherwise `'sfu'`).  Mutation of the live
`room` object is modelled by writing the final record back with `setRoom`. -/
def joinRoom (rooms : Registry) (roomId userId : String) : Registry × Room :=
  let room : Room :=
    match getRoom rooms roomId with
    | none => { id := roomId, mode := RoomMode.p2p, participants := [userId] }
    | some r =>
        if r.participants.contains userId then r
        else { r with participants := r.participants ++ [userId] }
  let room :=
    { room with
        mode := if room.participants.length ≤ 2 then RoomMode.p2p else RoomMode.sfu }
  (setRoom rooms roomId room, room)

/-- `leaveRoom` of `rooms.ts`: filter the participant out; delete the room
and return `null` when no participants remain; otherwise recompute the mode
and return the updated room. -/
def leaveRoom (rooms : Registry) (roomId userId : String) : Registry × Option Room :=
  match getRoom rooms roomId with
  | none => (rooms, none)
  | some room =>
      let ps := room.participants.filter (fun pid => pid != userId)
      if ps.length = 0 then (eraseRoom rooms roomId, none)
      else
        let room :=
          { room with
              participants := ps,
              mode := if ps.length ≤ 2 then RoomMode.p2p else RoomMode.sfu }
        (setRoom rooms roomId room, some room)

/-- A registry mutation: the two operations the signaling layer drives. -/
inductive RegOp where
  | join (roomId userId : String)
  | leave (roomId userId : String)
  deriving DecidableEq, Repr

/-- Apply one registry operation (discarding the returned snapshot). -/
def applyOp (rooms : Registry) : RegOp → Registry
  | RegOp.join r u => (joinRoom rooms r u).1
  | RegOp.leave r u => (leaveRoom rooms r u).1

/-- Apply a finite sequence of join/leave operations in order. -/
def applyOps (ops : List RegOp) (rooms : Registry) : Registry :=
  ops.foldl applyOp rooms

/-- The mode/count invariant of a single room: `mode = 'sfu'` iff the
participant count is at least 3, and `mode = 'p2p'` iff it is at most 2. -/
def modeOk (r : Room) : Bool :=
  ((r.mode == RoomMode.sfu) == decide (3 ≤ r.participants.length)) &&
  ((r.mode == RoomMode.p2p) == decide (r.participants.length ≤ 2))

/-- Every room present in the registry satisfies `modeOk`. -/
def regInvariant (rooms : Registry) : Bool :=
  rooms.all (fun p => modeOk p.2)

/-- An event the signaling relay broadcasts to a room (`io.to(roomId).emit`). -/
inductive ServerEvent where
  | modeChanged (roomId : String) (oldMode newMode : RoomMode)
      (participants : List String)
  | roomUpdated (roomId : String) (mode : RoomMode) (participants : List String)
  deriving DecidableEq, Repr

/-- The `socket.on('join-room')` handler of `index.ts`: records the previous
mode, performs the registry join, broadcasts `mode-changed` only when a
previous mode existed and differs from the new one, and always broadcasts
`room-updated` afterwards.  The returned list is the broadcast sequence in
emission order. -/
def handleJoinRoom (rooms : Registry) (roomId userId : String) :
    Registry × List ServerEvent :=
  let previousMode := (getRoom rooms roomId).map Room.mode
  let result := joinRoom rooms roomId userId
  let room := result.2
  let modeEvents : List ServerEvent :=
    match previousMode with
    | some pm =>
        if pm ≠ room.mode then
          [ServerEvent.modeChanged roomId pm room.mode room.participants]
        else []
    | none => []
  (result.1, modeEvents ++ [ServerEvent.roomUpdated roomId room.mode room.participants])

/-- The per-connection `socket.data` record of `index.ts`. -/
structure SocketData where
  roomId : Option String
  userId : Option String
  deriving DecidableEq, Repr

/-- A message a client can send over its Socket.IO connection. -/
inductive ClientMsg where
  | joinRoomMsg (roomId userId : String)
  | offerClientMsg (roomId sender payload : String)
  | answerClientMsg (roomId sender payload : String)
  | iceClientMsg (roomId sender payload : String)
  deriving DecidableEq, Repr

/-- Effect of one incoming client message on the connection's `socket.data`:
the `join-room` handler assigns `socket.data.roomId` and `socket.data.userId`
on every `join-room` message; the signaling forward handlers never touch
`socket.data`. -/
def socketDataStep (s : SocketData) : ClientMsg → SocketData
  | ClientMsg.joinRoomMsg roomId userId =>
      { roomId := some roomId, userId := some userId }
  | ClientMsg.offerClientMsg _ _ _ => s
  | ClientMsg.answerClientMsg _ _ _ => s
  | ClientMsg.iceClientMsg _ _ _ => s

/-- Whether a client message is a `join-room` message. -/
def isJoinMsg : ClientMsg → Bool
  | ClientMsg.joinRoomMsg _ _ => true
  | _ => false

/-- Response shape of the `POST /api/room` endpoint of `index.ts`. -/
inductive ApiResponse where
  | badRequest
  | ok (roomId : String) (mode : RoomMode) (participantsCount : Nat)
  deriving DecidableEq, Repr

/-- The `POST /api/room` handler of `index.ts`: rejects the request with a
400 when `roomId` or `userId` is falsy (for strings: empty), otherwise joins
and reports the snapshot summary. -/
def postApiRoom (rooms : Registry) (roomId userId : String) :
    Registry × ApiResponse :=
  if roomId == "" || userId == "" then (rooms, ApiResponse.badRequest)
  else
    let result := joinRoom rooms roomId userId
    (result.1, ApiResponse.ok result.2.id result.2.mode result.2.participants.length)

/-! ## Client-side negotiation state machine (`P2PCall.tsx`)

The browser `RTCPeerConnection` is an external API; the definitions below
model the subset of its signaling-state machine the handlers exercise
(success path): `setLocalDescription` / `setRemoteDescription` with offer,
answer and rollback descriptions, the `remoteDescription` getter
(pending-or-current), and `addIceCandidate` recorded as an application
trace in order. -/

/-- The `type` field of an `RTCSessionDescriptionInit`. -/
inductive SDPType where
  | offer
  | answer
  | rollback
  deriving DecidableEq, Repr

/-- A session description `{ type, sdp }`. -/
structure SessionDesc where
  type : SDPType
  sdp : String
  deriving DecidableEq, Repr

/-- The `{ type: 'rollback' }` description used by the glare path. -/
def rollbackDesc : SessionDesc := { type := SDPType.rollback, sdp := "" }

/-- The WebRTC signaling states the handlers distinguish. -/
inductive SigState where
  | stable
  | haveLocalOffer
  | haveRemoteOffer
  deriving DecidableEq, Repr

/-- Model of an `RTCPeerConnection`'s negotiation-relevant state.  `applied`
is the trace of ICE candidates passed to `addIceCandidate`, in order. -/
structure PC where
  signalingState : SigState
  pendingLocal : Option SessionDesc
  pendingRemote : Option SessionDesc
  currentLocal : Option SessionDesc
  currentRemote : Option SessionDesc
  applied : List String
  deriving DecidableEq, Repr

/-- A fresh `RTCPeerConnection`. -/
def newPC : PC :=
  { signalingState := SigState.stable, pendingLocal := none, pendingRemote := none,
    currentLocal := none, currentRemote := none, applied := [] }

/-- `pc.setLocalDescription(d)`: an offer becomes the pending local
description; an answer commits the exchange back to stable; rollback drops
both pending descriptions and returns to stable. -/
def setLocalDescription (pc : PC) (d : SessionDesc) : PC :=
  match d.type with
  | SDPType.offer =>
      { pc with pendingLocal := some d, signalingState := SigState.haveLocalOffer }
  | SDPType.answer =>
      { pc with currentLocal := some d, currentRemote := pc.pendingRemote,
                pendingLocal := none, pendingRemote := none,
                signalingState := SigState.stable }
  | SDPType.rollback =>
      { pc with pendingLocal := none, pendingRemote := none,
                signalingState := SigState.stable }

/-- `pc.setRemoteDescription(d)`: an offer becomes the pending remote
description; an answer commits the exchange back to stable. -/
def setRemoteDescription (pc : PC) (d : SessionDesc) : PC :=
  match d.type with
  | SDPType.offer =>
      { pc with pendingRemote := some d, signalingState := SigState.haveRemoteOffer }
  | SDPType.answer =>
      { pc with currentRemote := some d, currentLocal := pc.pendingLocal,
                pendingLocal := none, pendingRemote := none,
                signalingState := SigState.stable }
  | SDPType.rollback =>
      { pc with pendingLocal := none, pendingRemote := none,
                signalingState := SigState.stable }

/-- The `pc.remoteDescription` getter: the pending remote description if one
exists, otherwise the current remote description. -/
def remoteDescription (pc : PC) : Option SessionDesc :=
  match pc.pendingRemote with
  | some d => some d
  | none => pc.currentRemote

/-- `pc.addIceCandidate(c)`: record the candidate as applied. -/
def addIceCandidate (pc : PC) (c : String) : PC :=
  { pc with applied := pc.applied ++ [c] }

/-- Apply a list of candidates in order (the `while … shift()` drain loop). -/
def addCandidates (pc : PC) (cs : List String) : PC :=
  cs.foldl addIceCandidate pc

/-- `pc.createAnswer()`: produces an answer description; the SDP payload is
opaque to the negotiation logic. -/
def createAnswer (_pc : PC) : SessionDesc :=
  { type := SDPType.answer, sdp := "answer-sdp" }

/-- `pc.createOffer()`: produces an offer description; the SDP payload is
opaque to the negotiation logic. -/
def createOffer (_pc : PC) : SessionDesc :=
  { type := SDPType.offer, sdp := "offer-sdp" }

/-- A message the `P2PCall` component emits over the socket. -/
inductive OutMsg where
  | offerOut (roomId sender : String) (offer : SessionDesc)
  | answerOut (roomId sender : String) (answer : SessionDesc)
  deriving DecidableEq, Repr

/-- The mutable state of the `P2PCall` component relevant to negotiation:
the peer connection, `isInitiatorRef` and `pendingCandidatesRef`. -/
structure HandlerState where
  pc : PC
  isInitiator : Bool
  pendingCandidates : List String
  deriving DecidableEq, Repr

/-- The `createOffer` helper of `P2PCall.tsx`: create an offer, set it as the
local description, and emit `webrtc-offer`. -/
def createOfferStep (username roomId : String) (hs : HandlerState) :
    HandlerState × List OutMsg :=
  let o := createOffer hs.pc
  ({ hs with pc := setLocalDescription hs.pc o },
   [OutMsg.offerOut roomId username o])

/-- The `socket.on('webrtc-offer')` handler of `P2PCall.tsx`: ignore
self-echo; mark negotiation started; roll back unless the connection is
stable (or holds a local offer atop a committed remote description); accept
the incoming offer as the remote description; drain queued candidates in
order; answer and emit `webrtc-answer`. -/
def onWebrtcOffer (username roomId : String) (hs : HandlerState)
    (sender : String) (offer : SessionDesc) : HandlerState × List OutMsg :=
  if sender == username then (hs, [])
  else
    let hs1 := { hs with isInitiator := true }
    let isStable :=
      (hs1.pc.signalingState == SigState.stable) ||
      ((hs1.pc.signalingState == SigState.haveLocalOffer) &&
        hs1.pc.currentRemote.isSome)
    let pc1 := if isStable then hs1.pc else setLocalDescription hs1.pc rollbackDesc
    let pc2 := setRemoteDescription pc1 offer
    let pc3 := addCandidates pc2 hs1.pendingCandidates
    let ans := createAnswer pc3
    let pc4 := setLocalDescription pc3 ans
    ({ hs1 with pc := pc4, pendingCandidates := [] },
     [OutMsg.answerOut roomId username ans])

/-- The `socket.on('webrtc-answer')` handler of `P2PCall.tsx`: ignore
self-echo; set the remote description; drain queued candidates in order. -/
def onWebrtcAnswer (username : String) (hs : HandlerState)
    (sender : String) (answer : SessionDesc) : HandlerState :=
  if sender == username then hs
  else
    let pc1 := setRemoteDescription hs.pc answer
    { hs with pc := addCandidates pc1 hs.pendingCandidates,
              pendingCandidates := [] }

/-- The `socket.on('webrtc-ice-candidate')` handler of `P2PCall.tsx`: ignore
self-echo; apply immediately when a remote description is set, otherwise
enqueue onto `pendingCandidatesRef`. -/
def onWebrtcIceCandidate (username : String) (hs : HandlerState)
    (sender : String) (c : String) : HandlerState :=
  if sender == username then hs
  else if (remoteDescription hs.pc).isSome then
    { hs with pc := addIceCandidate hs.pc c }
  else
    { hs with pendingCandidates := hs.pendingCandidates ++ [c] }

/-- The `socket.on('room-updated')` handler of `P2PCall.tsx`: when the room
reaches exactly two participants and this peer has not started negotiating,
become the initiator and create an offer. -/
def onRoomUpdated (username roomId : String) (hs : HandlerState)
    (participants : List String) : HandlerState × List OutMsg :=
  if participants.length == 2 && !hs.isInitiator then
    createOfferStep username roomId { hs with isInitiator := true }
  else (hs, [])

/-! Registry lemmas -/

theorem registry_scenario_check :
    regInvariant (applyOps [RegOp.join "R" "a", RegOp.join "R" "b",
      RegOp.join "R" "c", RegOp.leave "R" "b"] emptyRegistry) = true := by rfl

theorem modeOk_mk (i : String) (ps : List String) :
    modeOk { id := i, mode := if ps.length ≤ 2 then RoomMode.p2p else RoomMode.sfu,
             participants := ps } = true := by
  by_cases h : ps.length ≤ 2
  · simp [modeOk, h]
    rw [decide_eq_false (by omega : ¬ (3 ≤ ps.length))]
    rfl
  · simp [modeOk, h]
    omega

theorem regInvariant_setRoom (rooms : Registry) (k : String) (r : Room)
    (hr : modeOk r = true) (hinv : regInvariant rooms = true) :
    regInvariant (setRoom rooms k r) = true := by
  induction rooms with
  | nil => simp [setRoom, regInvariant, hr]
  | cons p rest ih =>
      simp only [regInvariant, List.all_cons, Bool.and_eq_true] at hinv
      simp only [setRoom]
      by_cases hk : (p.1 == k) = true
      · rw [if_pos hk]
        simp only [regInvariant, List.all_cons, Bool.and_eq_true]
        exact ⟨hr, hinv.2⟩
      · rw [if_neg hk]
        simp only [regInvariant, List.all_cons, Bool.and_eq_true]
        exact ⟨hinv.1, ih hinv.2⟩

theorem regInvariant_eraseRoom (rooms : Registry) (k : String)
    (hinv : regInvariant rooms = true) :
    regInvariant (eraseRoom rooms k) = true := by
  simp only [regInvariant, List.all_eq_true] at hinv ⊢
  intro p hp
  exact hinv p (List.mem_of_mem_filter hp)

theorem regInvariant_joinRoom (rooms : Registry) (roomId userId : String)
    (hinv : regInvariant rooms = true) :
    regInvariant (joinRoom rooms roomId userId).1 = true := by
  unfold joinRoom
  cases hget : getRoom rooms roomId with
  | none =>
      simp only [hget]
      exact regInvariant_setRoom _ _ _ (modeOk_mk roomId [userId]) hinv
  | some r =>
      simp only [hget]
      by_cases hmem : r.participants.contains userId
      · simp only [hmem, if_pos]
        exact regInvariant_setRoom _ _ _ (modeOk_mk r.id r.participants) hinv
      · simp only [hmem, Bool.false_eq_true, if_neg, not_false_eq_true]
        exact regInvariant_setRoom _ _ _
          (modeOk_mk r.id (r.participants ++ [userId])) hinv

theorem regInvariant_leaveRoom (rooms : Registry) (roomId userId : String)
    (hinv : regInvariant rooms = true) :
    regInvariant (leaveRoom rooms roomId userId).1 = true := by
  unfold leaveRoom
  cases hget : getRoom rooms roomId with
  | none => simpa [hget] using hinv
  | some r =>
      simp only [hget]
      by_cases hlen : (r.participants.filter (fun pid => pid != userId)).length = 0
      · simp only [hlen, if_pos]
        exact regInvariant_eraseRoom _ _ hinv
      · simp only [hlen, if_neg, not_false_eq_true]
        exact regInvariant_setRoom _ _ _
          (modeOk_mk r.id (r.participants.filter (fun pid => pid != userId))) hinv

theorem regInvariant_applyOp (rooms : Registry) (op : RegOp)
    (hinv : regInvariant rooms = true) :
    regInvariant (applyOp rooms op) = true := by
  cases op with
  | join r u => exact regInvariant_joinRoom rooms r u hinv
  | leave r u => exact regInvariant_leaveRoom rooms r u hinv

theorem regInvariant_applyOps (ops : List RegOp) (rooms : Registry)
    (hinv : regInvariant rooms = true) :
    regInvariant (applyOps ops rooms) = true := by
  induction ops generalizing rooms with
  | nil => simpa [applyOps] using hinv
  | cons op ops ih =>
      simp only [applyOps, List.foldl_cons]
      exact ih (applyOp rooms op) (regInvariant_applyOp rooms op hinv)

theorem getRoom_cons (p : String × Room) (l : Registry) (k : String) :
    getRoom (p :: l) k = if p.1 == k then some p.2 else getRoom l k := rfl

theorem getRoom_setRoom_self (rooms : Registry) (k : String) (r : Room) :
    getRoom (setRoom rooms k r) k = some r := by
  induction rooms with
  | nil => simp [setRoom, getRoom_cons]
  | cons p rest ih =>
      simp only [setRoom]
      by_cases hk : (p.1 == k) = true
      · rw [if_pos hk, getRoom_cons]
        simp
      · rw [if_neg hk, getRoom_cons, if_neg hk]
        exact ih

theorem getRoom_eraseRoom_self (rooms : Registry) (k : String) :
    getRoom (eraseRoom rooms k) k = none := by
  induction rooms with
  | nil => rfl
  | cons p rest ih =>
      simp only [eraseRoom, List.filter_cons]
      by_cases hk : (p.1 != k) = true
      · rw [if_pos hk, getRoom_cons, if_neg (by simpa using hk)]
        exact ih
      · rw [if_neg hk]
        exact ih

theorem setRoom_getRoom_eq (rooms : Registry) (k : String) (r : Room)
    (h : getRoom rooms k = some r) : setRoom rooms k r = rooms := by
  induction rooms with
  | nil => simp [getRoom] at h
  | cons p rest ih =>
      rw [getRoom_cons] at h
      simp only [setRoom]
      by_cases hk : (p.1 == k) = true
      · rw [if_pos hk]
        rw [if_pos hk] at h
        obtain rfl : p.2 = r := by simpa using h
        have hkey : p.1 = k := by simpa using hk
        rw [← hkey]
      · rw [if_neg hk]
        rw [if_neg hk] at h
        rw [ih h]

/-- Claim C1: for every finite sequence of join and leave operations on the
room registry (starting from the empty registry), every room present in the
registry satisfies: its mode is `'sfu'` (ROUTED) iff its participant count
is at least 3, and its mode is `'p2p'` (MESH) iff its participant count is
at most 2. -/
theorem registry_mode_invariant (ops : List RegOp) :
    regInvariant (applyOps ops emptyRegistry) = true :=
  regInvariant_applyOps ops emptyRegistry rfl

/-- Claim C4: joining an identity that is already a member of the room
leaves the registry (hence the member list, contents and order, and the
mode) unchanged and returns the current room record: join is idempotent.
The hypothesis `hmode` is the mode/count invariant every room stored in the
registry satisfies (claim C1). -/
theorem joinRoom_idempotent (rooms : Registry) (roomId userId : String) (room : Room)
    (hget : getRoom rooms roomId = some room)
    (hmem : room.participants.contains userId = true)
    (hmode : room.mode =
      if room.participants.length ≤ 2 then RoomMode.p2p else RoomMode.sfu) :
    joinRoom rooms roomId userId = (rooms, room) := by
  unfold joinRoom
  simp only [hget, hmem, if_pos]
  have hroom :
      ({ room with mode :=
          if room.participants.length ≤ 2 then RoomMode.p2p else RoomMode.sfu } : Room)
        = room := by
    rw [← hmode]
  rw [hroom, setRoom_getRoom_eq rooms roomId room hget]

/-- Claim C4 witness: re-joining `"a"` to a two-member room is a no-op. -/
theorem joinRoom_idempotent_witness :
    joinRoom [("R", { id := "R", mode := RoomMode.p2p, participants := ["a", "b"] })]
        "R" "a" =
      ([("R", { id := "R", mode := RoomMode.p2p, participants := ["a", "b"] })],
       { id := "R", mode := RoomMode.p2p, participants := ["a", "b"] }) :=
  joinRoom_idempotent _ "R" "a" _ rfl rfl rfl

/-- Claim C5: a leave that removes the last member deletes the room from the
registry and returns `null`; a subsequent `getRoom` returns nothing until a
new join recreates the room. -/
theorem leaveRoom_last_member_deletes (rooms : Registry) (roomId userId : String)
    (room : Room) (hget : getRoom rooms roomId = some room)
    (hempty : (room.participants.filter (fun pid => pid != userId)).length = 0) :
    (leaveRoom rooms roomId userId).2 = none ∧
    getRoom (leaveRoom rooms roomId userId).1 roomId = none ∧
    (∀ u : String,
      getRoom (joinRoom (leaveRoom rooms roomId userId).1 roomId u).1 roomId =
        some { id := roomId, mode := RoomMode.p2p, participants := [u] }) := by
  have hbranch : leaveRoom rooms roomId userId = (eraseRoom rooms roomId, none) := by
    unfold leaveRoom
    rw [hget]
    simp [hempty]
  rw [hbranch]
  refine ⟨rfl, getRoom_eraseRoom_self rooms roomId, ?_⟩
  intro u
  unfold joinRoom
  rw [getRoom_eraseRoom_self rooms roomId]
  simpa using getRoom_setRoom_self (eraseRoom rooms roomId) roomId _

/-- Claim C5 witness: the last member leaving room `"R"` deletes it, and a
fresh join recreates it. -/
theorem leaveRoom_last_member_deletes_witness :
    (leaveRoom [("R", { id := "R", mode := RoomMode.p2p, participants := ["a"] })]
        "R" "a").2 = none ∧
    getRoom (leaveRoom [("R", { id := "R", mode := RoomMode.p2p, participants := ["a"] })]
        "R" "a").1 "R" = none ∧
    getRoom (joinRoom (leaveRoom
        [("R", { id := "R", mode := RoomMode.p2p, participants := ["a"] })]
        "R" "a").1 "R" "z").1 "R" =
      some { id := "R", mode := RoomMode.p2p, participants := ["z"] } := by
  obtain ⟨h1, h2, h3⟩ := leaveRoom_last_member_deletes
    [("R", { id := "R", mode := RoomMode.p2p, participants := ["a"] })] "R" "a"
    { id := "R", mode := RoomMode.p2p, participants := ["a"] } rfl rfl
  exact ⟨h1, h2, h3 "z"⟩

/-- Claim C9: a leave on a room identifier that is not in the registry
returns the same `null` result as a room-deleting leave and leaves the
registry entirely unchanged. -/
theorem leaveRoom_missing_room_noop (rooms : Registry) (roomId userId : String)
    (hget : getRoom rooms roomId = none) :
    leaveRoom rooms roomId userId = (rooms, none) := by
  unfold leaveRoom
  simp [hget]

/-- Claim C9 witness: leaving an unknown room of an empty registry. -/
theorem leaveRoom_missing_room_noop_witness :
    leaveRoom emptyRegistry "R" "a" = (emptyRegistry, none) :=
  leaveRoom_missing_room_noop emptyRegistry "R" "a" rfl

/-- Claim C10: a leave that removes one identity from a room and leaves it
non-empty removes only that identity, preserves the relative order of the
remaining members (sublist of the original), keeps the id, and changes no
other field except the recomputed mode. -/
theorem leaveRoom_frame (rooms : Registry) (roomId userId : String) (room : Room)
    (hget : getRoom rooms roomId = some room)
    (hne : room.participants.filter (fun pid => pid != userId) ≠ []) :
    ∃ r' : Room, (leaveRoom rooms roomId userId).2 = some r' ∧
      r'.id = room.id ∧
      List.Sublist r'.participants room.participants ∧
      userId ∉ r'.participants ∧
      (∀ x ∈ room.participants, x ≠ userId → x ∈ r'.participants) ∧
      (r'.mode = RoomMode.p2p ↔ r'.participants.length ≤ 2) := by
  unfold leaveRoom
  simp only [hget]
  rw [if_neg (by simpa using hne)]
  refine ⟨_, rfl, rfl, List.filter_sublist _, ?_, ?_, ?_⟩
  · intro hmem
    rcases List.mem_filter.mp hmem with ⟨-, hbne⟩
    simp at hbne
  · intro x hx hxne
    exact List.mem_filter.mpr ⟨hx, by simpa using hxne⟩
  · by_cases hlen :
      (room.participants.filter (fun pid => pid != userId)).length ≤ 2
    · simp [hlen]
    · simp [hlen]

/-- Claim C10 witness: `"b"` leaving the three-member room keeps `"a"`,
`"c"` in order and recomputes the mode. -/
theorem leaveRoom_frame_witness :
    getRoom [("R", (⟨"R", RoomMode.sfu, ["a", "b", "c"]⟩ : Room))] "R" =
      some (⟨"R", RoomMode.sfu, ["a", "b", "c"]⟩ : Room) ∧
    (∃ r' : Room,
      (leaveRoom [("R", (⟨"R", RoomMode.sfu, ["a", "b", "c"]⟩ : Room))]
          "R" "b").2 = some r' ∧
      r'.id = "R" ∧
      List.Sublist r'.participants ["a", "b", "c"] ∧
      "b" ∉ r'.participants ∧
      (∀ x ∈ (["a", "b", "c"] : List String), x ≠ "b" → x ∈ r'.participants) ∧
      (r'.mode = RoomMode.p2p ↔ r'.participants.length ≤ 2)) :=
  ⟨rfl, leaveRoom_frame [("R", (⟨"R", RoomMode.sfu, ["a", "b", "c"]⟩ : Room))] "R" "b"
    ⟨"R", RoomMode.sfu, ["a", "b", "c"]⟩ rfl
    (by
      rw [show List.filter (fun pid => pid != "b") ["a", "b", "c"] = ["a", "c"] from rfl]
      exact List.cons_ne_nil _ _)⟩

/-- Claim C6: the `join-room` handler broadcasts exactly one `mode-changed`
event (carrying the old mode, the new mode and the members), immediately
before the single `room-updated` event, precisely when the room existed
before the join and its mode changed; a join that creates the room, or that
leaves the mode unchanged, broadcasts `room-updated` alone. -/
theorem join_handler_mode_changed_iff (rooms : Registry) (roomId userId : String) :
    (getRoom rooms roomId = none →
      (handleJoinRoom rooms roomId userId).2 =
        [ServerEvent.roomUpdated roomId (joinRoom rooms roomId userId).2.mode
           (joinRoom rooms roomId userId).2.participants]) ∧
    (∀ pm : RoomMode, (getRoom rooms roomId).map Room.mode = some pm →
      pm = (joinRoom rooms roomId userId).2.mode →
      (handleJoinRoom rooms roomId userId).2 =
        [ServerEvent.roomUpdated roomId (joinRoom rooms roomId userId).2.mode
           (joinRoom rooms roomId userId).2.participants]) ∧
    (∀ pm : RoomMode, (getRoom rooms roomId).map Room.mode = some pm →
      pm ≠ (joinRoom rooms roomId userId).2.mode →
      (handleJoinRoom rooms roomId userId).2 =
        [ServerEvent.modeChanged roomId pm (joinRoom rooms roomId userId).2.mode
           (joinRoom rooms roomId userId).2.participants,
         ServerEvent.roomUpdated roomId (joinRoom rooms roomId userId).2.mode
           (joinRoom rooms roomId userId).2.participants]) := by
  refine ⟨?_, ?_, ?_⟩
  · intro h
    unfold handleJoinRoom
    rw [h]
    simp
  · intro pm hpm heq
    obtain ⟨r0, hr0, hm⟩ : ∃ r0, getRoom rooms roomId = some r0 ∧ r0.mode = pm := by
      cases hg : getRoom rooms roomId with
      | none => rw [hg] at hpm; simp at hpm
      | some r0 =>
          rw [hg] at hpm
          exact ⟨r0, rfl, by simpa using hpm⟩
    unfold handleJoinRoom
    rw [hr0]
    simp [hm, heq]
  · intro pm hpm hne
    obtain ⟨r0, hr0, hm⟩ : ∃ r0, getRoom rooms roomId = some r0 ∧ r0.mode = pm := by
      cases hg : getRoom rooms roomId with
      | none => rw [hg] at hpm; simp at hpm
      | some r0 =>
          rw [hg] at hpm
          exact ⟨r0, rfl, by simpa using hpm⟩
    unfold handleJoinRoom
    rw [hr0]
    simp [hm, hne]

/-- Claim C6 witness: joining `"c"` to a two-member MESH room broadcasts
`mode-changed(p2p → sfu)` and then `room-updated`. -/
theorem join_handler_mode_changed_iff_witness :
    (handleJoinRoom [("R", (⟨"R", RoomMode.p2p, ["a", "b"]⟩ : Room))] "R" "c").2 =
      [ServerEvent.modeChanged "R" RoomMode.p2p RoomMode.sfu ["a", "b", "c"],
       ServerEvent.roomUpdated "R" RoomMode.sfu ["a", "b", "c"]] := by
  have h := (join_handler_mode_changed_iff
    [("R", (⟨"R", RoomMode.p2p, ["a", "b"]⟩ : Room))] "R" "c").2.2 RoomMode.p2p rfl
    (by
      rw [show (joinRoom [("R", (⟨"R", RoomMode.p2p, ["a", "b"]⟩ : Room))]
            "R" "c").2.mode = RoomMode.sfu from rfl]
      intro hc
      exact RoomMode.noConfusion hc)
  exact h

/-- Claim C7 counterexample: the registry-level `joinRoom` does not fail on
the empty identity — it succeeds, returns a snapshot, and registers the
empty string as a participant. -/
theorem joinRoom_empty_identity_accepted :
    (joinRoom emptyRegistry "R" "").2 =
      { id := "R", mode := RoomMode.p2p, participants := [""] } ∧
    (joinRoom emptyRegistry "R" "").1 =
      [("R", { id := "R", mode := RoomMode.p2p, participants := [""] })] :=
  ⟨rfl, rfl⟩

/-- Claim C7 amended: the registry-level `joinRoom` never fails — for every
roomId/identity pair, the empty identity included, it returns a snapshot
containing the identity; the empty identity is rejected only by the REST
caller layer (`POST /api/room` answers 400). -/
theorem joinRoom_never_fails :
    (∀ (rooms : Registry) (roomId userId : String),
        userId ∈ (joinRoom rooms roomId userId).2.participants) ∧
    (∀ (rooms : Registry) (roomId : String),
        (postApiRoom rooms roomId "").2 = ApiResponse.badRequest) := by
  constructor
  · intro rooms roomId userId
    unfold joinRoom
    cases hget : getRoom rooms roomId with
    | none => simp
    | some r =>
        by_cases hmem : r.participants.contains userId = true
        · simp only [hmem, if_pos]
          simpa using hmem
        · have hmem' : userId ∉ r.participants := by simpa using hmem
          simp [hmem']
  · intro rooms roomId
    unfold postApiRoom
    simp

/-- Claim C8 counterexample: `socket.data` is not immutable after the first
join — a second `join-room` message on the same connection rebinds the
connection's roomId and userId. -/
theorem socket_binding_rebound_counterexample :
    socketDataStep (socketDataStep { roomId := none, userId := none }
        (ClientMsg.joinRoomMsg "R1" "a")) (ClientMsg.joinRoomMsg "R2" "b") ≠
      socketDataStep { roomId := none, userId := none }
        (ClientMsg.joinRoomMsg "R1" "a") := by
  simp [socketDataStep]

/-- Claim C8 amended: the connection's identity and roomId are assigned by
every `join-room` message (so a later join rebinds them), and no message
other than `join-room` ever changes them. -/
theorem socket_binding_join_rebinds :
    (∀ (s : SocketData) (roomId userId : String),
        socketDataStep s (ClientMsg.joinRoomMsg roomId userId) =
          { roomId := some roomId, userId := some userId }) ∧
    (∀ (s : SocketData) (m : ClientMsg), isJoinMsg m = false →
        socketDataStep s m = s) := by
  constructor
  · intro s r u
    rfl
  · intro s m hm
    cases m with
    | joinRoomMsg r u => simp [isJoinMsg] at hm
    | offerClientMsg r snd p => rfl
    | answerClientMsg r snd p => rfl
    | iceClientMsg r snd p => rfl

/-- Claim C8 witness: a forwarded offer leaves `socket.data` untouched. -/
theorem socket_binding_join_rebinds_witness :
    socketDataStep { roomId := some "R", userId := some "a" }
        (ClientMsg.offerClientMsg "R" "b" "sdp") =
      { roomId := some "R", userId := some "a" } :=
  socket_binding_join_rebinds.2 { roomId := some "R", userId := some "a" }
    (ClientMsg.offerClientMsg "R" "b" "sdp") rfl

/-! Negotiation state machine lemmas -/

theorem addCandidates_eq (cs : List String) (pc : PC) :
    addCandidates pc cs = { pc with applied := pc.applied ++ cs } := by
  induction cs generalizing pc with
  | nil => simp [addCandidates]
  | cons c cs ih =>
      simp only [addCandidates, List.foldl_cons]
      have h1 : List.foldl addIceCandidate (addIceCandidate pc c) cs =
          addCandidates (addIceCandidate pc c) cs := rfl
      rw [h1, ih]
      simp [addIceCandidate]

theorem setLocalDescription_applied (pc : PC) (d : SessionDesc) :
    (setLocalDescription pc d).applied = pc.applied := by
  obtain ⟨ty, s⟩ := d
  cases ty <;> rfl

theorem setRemoteDescription_applied (pc : PC) (d : SessionDesc) :
    (setRemoteDescription pc d).applied = pc.applied := by
  obtain ⟨ty, s⟩ := d
  cases ty <;> rfl

/-- Claim C2: a peer in LOCAL_OFFER_SET (signaling state `have-local-offer`,
no committed remote description) that receives a competing offer from a
different identity unconditionally rolls back its own pending local offer,
accepts the incoming offer as the remote description, emits exactly one
answer (and no offer), and ends STABLE; a subsequent `room-updated` does not
re-create the discarded offer (it is never retried automatically). -/
theorem glare_unconditional_rollback (username roomId sender : String)
    (hs : HandlerState) (offer : SessionDesc)
    (hty : offer.type = SDPType.offer)
    (hsender : sender ≠ username)
    (hlocal : hs.pc.signalingState = SigState.haveLocalOffer)
    (hnorem : hs.pc.currentRemote = none) :
    (onWebrtcOffer username roomId hs sender offer).1.pc.signalingState =
        SigState.stable ∧
    (onWebrtcOffer username roomId hs sender offer).1.pc.currentRemote =
        some offer ∧
    (onWebrtcOffer username roomId hs sender offer).1.pc.pendingLocal = none ∧
    (∃ a : SessionDesc, a.type = SDPType.answer ∧
      (onWebrtcOffer username roomId hs sender offer).2 =
        [OutMsg.answerOut roomId username a]) ∧
    (∀ ps : List String,
      (onRoomUpdated username roomId
        (onWebrtcOffer username roomId hs sender offer).1 ps).2 = []) := by
  obtain ⟨pc, init, cands⟩ := hs
  obtain ⟨ss, pl, pr, cl, cr, ap⟩ := pc
  obtain ⟨ty, sdp⟩ := offer
  simp only at hlocal hnorem hty
  subst hlocal hnorem hty
  have hbeq : (sender == username) = false := by simpa using hsender
  have hrun : onWebrtcOffer username roomId
      ⟨⟨SigState.haveLocalOffer, pl, pr, cl, none, ap⟩, init, cands⟩ sender
      ⟨SDPType.offer, sdp⟩ =
      (⟨⟨SigState.stable, none, none, some ⟨SDPType.answer, "answer-sdp"⟩,
          some ⟨SDPType.offer, sdp⟩, ap ++ cands⟩, true, []⟩,
       [OutMsg.answerOut roomId username ⟨SDPType.answer, "answer-sdp"⟩]) := by
    unfold onWebrtcOffer
    rw [if_neg (by simp [hbeq])]
    simp [setLocalDescription, setRemoteDescription, rollbackDesc, createAnswer,
      addCandidates_eq, addIceCandidate]
  rw [hrun]
  refine ⟨rfl, rfl, rfl, ⟨⟨SDPType.answer, "answer-sdp"⟩, rfl, rfl⟩, ?_⟩
  intro ps
  simp [onRoomUpdated]

/-- Claim C2 witness: a concrete glare scenario — peer `"a"` holds a pending
local offer and a queued candidate, then receives `"b"`'s offer. -/
theorem glare_unconditional_rollback_witness :
    (onWebrtcOffer "a" "R"
        ⟨⟨SigState.haveLocalOffer, some ⟨SDPType.offer, "mine"⟩, none, none, none, []⟩,
          true, ["cand1"]⟩ "b" ⟨SDPType.offer, "theirs"⟩).1.pc.signalingState =
        SigState.stable ∧
    (onWebrtcOffer "a" "R"
        ⟨⟨SigState.haveLocalOffer, some ⟨SDPType.offer, "mine"⟩, none, none, none, []⟩,
          true, ["cand1"]⟩ "b" ⟨SDPType.offer, "theirs"⟩).1.pc.currentRemote =
        some ⟨SDPType.offer, "theirs"⟩ ∧
    (onWebrtcOffer "a" "R"
        ⟨⟨SigState.haveLocalOffer, some ⟨SDPType.offer, "mine"⟩, none, none, none, []⟩,
          true, ["cand1"]⟩ "b" ⟨SDPType.offer, "theirs"⟩).1.pc.pendingLocal = none ∧
    (∃ a : SessionDesc, a.type = SDPType.answer ∧
      (onWebrtcOffer "a" "R"
          ⟨⟨SigState.haveLocalOffer, some ⟨SDPType.offer, "mine"⟩, none, none, none, []⟩,
            true, ["cand1"]⟩ "b" ⟨SDPType.offer, "theirs"⟩).2 =
        [OutMsg.answerOut "R" "a" a]) ∧
    (∀ ps : List String,
      (onRoomUpdated "a" "R"
        (onWebrtcOffer "a" "R"
          ⟨⟨SigState.haveLocalOffer, some ⟨SDPType.offer, "mine"⟩, none, none, none, []⟩,
            true, ["cand1"]⟩ "b" ⟨SDPType.offer, "theirs"⟩).1 ps).2 = []) :=
  glare_unconditional_rollback "a" "R" "b"
    ⟨⟨SigState.haveLocalOffer, some ⟨SDPType.offer, "mine"⟩, none, none, none, []⟩,
      true, ["cand1"]⟩ ⟨SDPType.offer, "theirs"⟩ rfl (by simp) rfl rfl

/-- Claim C3: a candidate from another identity arriving with no remote
description set is queued, not applied; one arriving with a remote
description set is applied immediately; and both the offer and the answer
handler drain the whole queue in original receipt order (appending it to the
application trace) leaving the queue empty — no candidate is dropped. -/
theorem candidate_queue_drain (username roomId sender c : String)
    (hs : HandlerState) (offer answer : SessionDesc)
    (hsender : sender ≠ username) :
    (remoteDescription hs.pc = none →
      onWebrtcIceCandidate username hs sender c =
        { hs with pendingCandidates := hs.pendingCandidates ++ [c] }) ∧
    ((remoteDescription hs.pc).isSome = true →
      onWebrtcIceCandidate username hs sender c =
        { hs with pc := { hs.pc with applied := hs.pc.applied ++ [c] } }) ∧
    ((onWebrtcOffer username roomId hs sender offer).1.pc.applied =
        hs.pc.applied ++ hs.pendingCandidates ∧
      (onWebrtcOffer username roomId hs sender offer).1.pendingCandidates = []) ∧
    ((onWebrtcAnswer username hs sender answer).pc.applied =
        hs.pc.applied ++ hs.pendingCandidates ∧
      (onWebrtcAnswer username hs sender answer).pendingCandidates = []) := by
  have hbeq : (sender == username) = false := by simpa using hsender
  refine ⟨?_, ?_, ⟨?_, ?_⟩, ⟨?_, ?_⟩⟩
  · intro h
    unfold onWebrtcIceCandidate
    rw [if_neg (by simp [hbeq]), h]
    simp [addIceCandidate]
  · intro h
    unfold onWebrtcIceCandidate
    rw [if_neg (by simp [hbeq]), if_pos h]
    simp [addIceCandidate]
  · unfold onWebrtcOffer
    rw [if_neg (by simp [hbeq])]
    simp only [setLocalDescription_applied, addCandidates_eq]
    simp only [setRemoteDescription_applied]
    split
    · rfl
    · rw [setLocalDescription_applied]
  · unfold onWebrtcOffer
    rw [if_neg (by simp [hbeq])]
  · unfold onWebrtcAnswer
    rw [if_neg (by simp [hbeq])]
    simp only [addCandidates_eq, setRemoteDescription_applied]
  · unfold onWebrtcAnswer
    rw [if_neg (by simp [hbeq])]

/-- Claim C3 witness: a concrete run — queue a candidate while no remote
description is set, then drain it on the offer. -/
theorem candidate_queue_drain_witness :
    (remoteDescription (⟨⟨SigState.stable, none, none, none, none, []⟩, false,
        ["c1", "c2"]⟩ : HandlerState).pc = none →
      onWebrtcIceCandidate "a" ⟨⟨SigState.stable, none, none, none, none, []⟩, false,
          ["c1", "c2"]⟩ "b" "c3" =
        { (⟨⟨SigState.stable, none, none, none, none, []⟩, false,
            ["c1", "c2"]⟩ : HandlerState) with
          pendingCandidates := ["c1", "c2"] ++ ["c3"] }) ∧
    ((onWebrtcOffer "a" "R" ⟨⟨SigState.stable, none, none, none, none, []⟩, false,
        ["c1", "c2"]⟩ "b" ⟨SDPType.offer, "o"⟩).1.pc.applied = [] ++ ["c1", "c2"] ∧
      (onWebrtcOffer "a" "R" ⟨⟨SigState.stable, none, none, none, none, []⟩, false,
        ["c1", "c2"]⟩ "b" ⟨SDPType.offer, "o"⟩).1.pendingCandidates = []) := by
  have h := candidate_queue_drain "a" "R" "b" "c3"
    ⟨⟨SigState.stable, none, none, none, none, []⟩, false, ["c1", "c2"]⟩
    ⟨SDPType.offer, "o"⟩ ⟨SDPType.answer, "ans"⟩ (by simp)
  exact ⟨fun hrd => h.1 hrd, h.2.2.1⟩
